import Mathlib

/-!
Shallow embedding of the order-to-report transformation of
`excel_reporter.py` (class `ExcelReporter`, the final revision of the
reporting logic) together with the column-width styling loop of the older
revision in `main.py`.  JSON numeric fields that the Python code coerces
with `float(...)` are modelled as exact rationals or a marker for a value
on which `float` raises; dictionary keys that may be absent are modelled
with `Option`.  Per-order normalization failure (any caught exception) is
modelled by `Option`-valued results.
-/

/-- A JSON value fed to Python's `float(...)`: either a value that coerces
to a number (modelled exactly as a rational) or a malformed value on which
`float` raises `ValueError`/`TypeError`. -/
inductive JNum where
  | num (q : Rat)
  | bad
deriving DecidableEq, Repr

/-- `float(x)`: `some` on coercible values, `none` models a raised exception. -/
def JNum.toFloat : JNum → Option Rat
  | .num q => some q
  | .bad => none

/-- One entry of the order's `meta_data` list: a `{key, value}` pair. -/
structure MetaEntry where
  key : String
  value : String
deriving DecidableEq, Repr

/-- The `billing` sub-dictionary.  Each field is read with
`.get(k, '')` in the source, so an absent key is indistinguishable from
the empty string and is modelled as `""`. -/
structure Billing where
  first_name : String
  last_name : String
  company : String
  address_1 : String
  address_2 : String
  city : String
  postcode : String
  phone : String
deriving DecidableEq, Repr

/-- One refunded line item inside a refund: `product_id` / `variation_id`
are read with `.get(...)` (absent keys give Python `None`, modelled as
`none`; `None == None` is true in Python, matching `Option` equality),
`qty` is read with `.get('qty', 0)`. -/
structure RefundLineItem where
  product_id : Option Int
  variation_id : Option Int
  qty : Int
deriving DecidableEq, Repr

/-- One refund of an order: a declared `total` and its refunded line items. -/
structure Refund where
  total : JNum
  line_items : List RefundLineItem
deriving DecidableEq, Repr

/-- One ordered line item.  `name` is accessed as `item['name']` (a missing
key raises `KeyError`, hence `Option`); `quantity` via `.get('quantity', 0)`;
`total` is coerced with `float(item.get('total', 0))`. -/
structure LineItem where
  name : Option String
  quantity : Int
  total : JNum
  product_id : Option Int
  variation_id : Option Int
deriving DecidableEq, Repr

/-- One entry of `shipping_lines`. -/
structure ShippingLine where
  method_title : String
  total : JNum
deriving DecidableEq, Repr

/-- A raw WooCommerce order as consumed by `create_excel_report`.
`date_created` is accessed as `order['date_created']` (missing key raises),
so it is an `Option`; its string is parsed by `strptime` which may fail. -/
structure Order where
  id : Int
  date_created : Option String
  billing : Billing
  payment_method_title : String
  discount_total : JNum
  total : JNum
  line_items : List LineItem
  refunds : List Refund
  meta_data : List MetaEntry
  shipping_lines : List ShippingLine
deriving DecidableEq, Repr

/-! ### String helpers mirroring the Python primitives used by the source -/

/-- `str.split(sep)` for a one-character separator, on the character list of
a string.  Always returns at least one (possibly empty) group, like Python. -/
def splitOnChar (sep : Char) : List Char → List (List Char)
  | [] => [[]]
  | a :: rest =>
    let r := splitOnChar sep rest
    if a = sep then [] :: r
    else
      match r with
      | g :: gs => (a :: g) :: gs
      | [] => [[a]]

/-- Leading-whitespace removal, one side of Python's `str.strip()`. -/
def dropLeadingWS : List Char → List Char
  | [] => []
  | c :: r => if c.isWhitespace then dropLeadingWS r else c :: r

/-- Python's `str.strip()`: drop leading and trailing whitespace. -/
def pyStrip (s : String) : String :=
  ⟨((dropLeadingWS ((dropLeadingWS s.data).reverse)).reverse)⟩

/-- Little-endian decimal digits of `n`, with explicit fuel so that the
definition is structural (the kernel can evaluate it). -/
def natDigitsRev (fuel : Nat) (n : Nat) : List Nat :=
  match fuel with
  | 0 => []
  | f + 1 => if n = 0 then [] else n % 10 :: natDigitsRev f (n / 10)

/-- Decimal rendering of a natural number, as Python's `str`/`f"{n}"`. -/
def natToStr (n : Nat) : String :=
  if n = 0 then "0" else ⟨((natDigitsRev n n).map Nat.digitChar).reverse⟩

/-- Insert a thousands separator into a little-endian digit-character list:
the worker of Python's `f"{x:,.0f}"` grouping. -/
def groupRev : List Char → Nat → List Char
  | [], _ => []
  | c :: rest, k =>
    if k = 3 then ',' :: c :: groupRev rest 1 else c :: groupRev rest (k + 1)

/-- Decimal rendering of a natural number with thousands separators. -/
def commaFmtNat (n : Nat) : String :=
  let digitsRev := if n = 0 then ['0'] else (natDigitsRev n n).map Nat.digitChar
  ⟨(groupRev digitsRev 0).reverse⟩

/-- Floor of a rational, computably (`Int.fdiv` is floor division). -/
def ratFloor (q : Rat) : Int := q.num.fdiv q.den

/-- Round to the nearest integer with ties to even: the rounding used by
Python's `round(x)` and by the `f"{x:,.0f}"` format. -/
def roundHalfEven (q : Rat) : Int :=
  let f := ratFloor q
  let r := q - (f : Rat)
  if r < 1/2 then f
  else if 1/2 < r then f + 1
  else if f % 2 = 0 then f else f + 1

/-- Python's `f"{x:,.0f}"`: round half-to-even to an integer, render with
thousands separators. -/
def fmtComma (q : Rat) : String :=
  let n := roundHalfEven q
  if n < 0 then "-" ++ commaFmtNat n.natAbs else commaFmtNat n.natAbs

/-! ### `datetime.strptime(s, '%Y-%m-%dT%H:%M:%S')` -/

/-- A parsed Gregorian timestamp (the result of a successful `strptime`). -/
structure DateTime where
  year : Nat
  month : Nat
  day : Nat
  hour : Nat
  minute : Nat
  second : Nat
deriving DecidableEq, Repr

/-- Gregorian leap year. -/
def isLeapYear (y : Nat) : Bool :=
  (y % 4 = 0 && y % 100 ≠ 0) || y % 400 = 0

/-- Days in a Gregorian month (`datetime` validates the day against it). -/
def daysInMonth (y m : Nat) : Nat :=
  if m = 2 then (if isLeapYear y then 29 else 28)
  else if m = 4 ∨ m = 6 ∨ m = 9 ∨ m = 11 then 30
  else 31

/-- Parse an all-digit field of at most `maxLen` digits (at least one). -/
def parseNumField (maxLen : Nat) (g : List Char) : Option Nat :=
  if g.length = 0 ∨ maxLen < g.length then none
  else if g.all Char.isDigit then
    some (g.foldl (fun acc c => acc * 10 + (c.toNat - 48)) 0)
  else none

/-- `datetime.strptime(s, '%Y-%m-%dT%H:%M:%S')`: `none` models the
`ValueError` raised on a malformed timestamp (wrong shape, non-digits, or
out-of-range calendar fields). -/
def parseDateTime (s : String) : Option DateTime :=
  match splitOnChar 'T' s.data with
  | [datePart, timePart] =>
    match splitOnChar '-' datePart, splitOnChar ':' timePart with
    | [ys, ms, ds], [hs, mins, secs] =>
      match parseNumField 4 ys, parseNumField 2 ms, parseNumField 2 ds,
            parseNumField 2 hs, parseNumField 2 mins, parseNumField 2 secs with
      | some y, some mo, some d, some h, some mi, some se =>
        if 1 ≤ y ∧ y ≤ 9999 ∧ 1 ≤ mo ∧ mo ≤ 12 ∧ 1 ≤ d ∧ d ≤ daysInMonth y mo ∧
            h ≤ 23 ∧ mi ≤ 59 ∧ se ≤ 59 then
          some ⟨y, mo, d, h, mi, se⟩
        else none
      | _, _, _, _, _, _ => none
    | _, _ => none
  | _ => none

/-! ### Order normalizer (`ExcelReporter.create_excel_report`, per-order part) -/

/-- `next((meta['value'] for meta in md if meta['key'] == k), d)`. -/
def metaValueD (md : List MetaEntry) (k : String) (d : String) : String :=
  ((md.find? (fun m => m.key == k)).map MetaEntry.value).getD d

/-- Buyer category: the value of the first `_user_type` metadata entry,
defaulting to `'individual'`. -/
def userTypeOf (o : Order) : String := metaValueD o.meta_data "_user_type" "individual"

/-- `ExcelReporter._get_buyer_name`. -/
def get_buyer_name (o : Order) : String :=
  let user_type := userTypeOf o
  if user_type = "corporate" then o.billing.company
  else pyStrip (o.billing.first_name ++ " " ++ o.billing.last_name)

/-- The refund-item / line-item match of the inner refund loop:
`refunded_item.get('product_id') == item.get('product_id') and
refunded_item.get('variation_id', 0) == item.get('variation_id', 0)`. -/
def riMatches (ri : RefundLineItem) (item : LineItem) : Bool :=
  ri.product_id == item.product_id && ri.variation_id.getD 0 == item.variation_id.getD 0

/-- `refunded_qty_for_this_item`: the nested loop over the order's refunds
and each refund's line items, accumulating `.get('qty', 0)` on matches. -/
def refunded_qty_for_item (refunds : List Refund) (item : LineItem) : Int :=
  refunds.foldl (fun acc refund =>
    refund.line_items.foldl
      (fun acc2 ri => if riMatches ri item then acc2 + ri.qty else acc2) acc) 0

/-- `effective_quantity = quantity - refunded_qty_for_this_item`. -/
def effQty (refunds : List Refund) (item : LineItem) : Int :=
  item.quantity - refunded_qty_for_item refunds item

/-- The coerced `float(item.get('total', 0))` of a line item whose coercion
succeeds (`0` placeholder otherwise; only used under that hypothesis). -/
def itemTotalD (item : LineItem) : Rat := (item.total.toFloat).getD 0

/-- The literal `1.10` of the source: the fixed 10% VAT factor. -/
def VAT_FACTOR : Rat := 11 / 10

/-- `price_no_tax_per_item = (item_total_price / 1.10) / effective_quantity`
when `item_total_price > 0`, else `0.0`. -/
def priceNoTaxPer (refunds : List Refund) (item : LineItem) : Rat :=
  if 0 < itemTotalD item then (itemTotalD item / VAT_FACTOR) / (effQty refunds item : Rat)
  else 0

/-- `vat_per_item = (item_total_price / effective_quantity) - price_no_tax_per_item`
when `item_total_price > 0`, else `0.0`. -/
def vatPer (refunds : List Refund) (item : LineItem) : Rat :=
  if 0 < itemTotalD item then
    itemTotalD item / (effQty refunds item : Rat) - priceNoTaxPer refunds item
  else 0

/-- The line items that are not skipped by `if effective_quantity <= 0: continue`. -/
def survivors (refunds : List Refund) (items : List LineItem) : List LineItem :=
  items.filter (fun it => 0 < effQty refunds it)

/-- A value written into a cell of the template sheet. -/
inductive CellVal where
  | s (v : String)
  | i (v : Int)
deriving DecidableEq, Repr

/-- One `sheet_body.cell(row=..., column=..., value=...)` call. -/
structure CellWrite where
  row : Nat
  col : Nat
  val : CellVal
deriving DecidableEq, Repr

def COL_DESCRIPTION : Nat := 3
def COL_QUANTITY : Nat := 4
def COL_UNIT : Nat := 5
def COL_UNIT_PRICE : Nat := 6
def COL_DISCOUNT : Nat := 10
def COL_VAT_RATE : Nat := 11
def COL_OTHER_TAX_SUBJECT : Nat := 12

/-- The seven cell writes of one template row ("عدد" is the fixed unit
label, i.e. "piece"; discount is hard-coded `0`, VAT rate hard-coded `10`,
the unit price is `round(price_no_tax_per_item)`). -/
def rowCells (rowIdx : Nat) (item_name : String) (effective_quantity : Int)
    (price_no_tax_per_item : Rat) (buyer_name : String) : List CellWrite :=
  [⟨rowIdx, COL_DESCRIPTION, .s item_name⟩,
   ⟨rowIdx, COL_QUANTITY, .i effective_quantity⟩,
   ⟨rowIdx, COL_UNIT, .s "عدد"⟩,
   ⟨rowIdx, COL_UNIT_PRICE, .i (roundHalfEven price_no_tax_per_item)⟩,
   ⟨rowIdx, COL_DISCOUNT, .i 0⟩,
   ⟨rowIdx, COL_VAT_RATE, .i 10⟩,
   ⟨rowIdx, COL_OTHER_TAX_SUBJECT, .s buyer_name⟩]

/-- The mutable state of the line-item loop: the four per-item lists, the
two running totals, the template cell writes made so far, and
`current_row_for_template`. -/
structure ItemAcc where
  item_names : List String
  item_quantities : List String
  item_prices_no_tax : List String
  item_vat_amounts : List String
  total_items_vat : Rat
  total_items_price_no_tax : Rat
  writes : List CellWrite
  current_row : Nat
deriving DecidableEq, Repr

def emptyAcc (startRow : Nat) : ItemAcc := ⟨[], [], [], [], 0, 0, [], startRow⟩

/-- The `for item in order.get('line_items', [])` loop.  The `Bool` is
`false` when an exception escapes the loop (missing `'name'` key or a
`float` coercion failure); the accumulator returned with `false` carries
the template cell writes already performed (they are external side
effects on the sheet and are not rolled back).  On the success path the
matched `float` value equals `itemTotalD item`, so the loop body uses the
named per-item functions `effQty`, `priceNoTaxPer` and `vatPer`, which
inline the `effective_quantity` / `price_no_tax_per_item` / `vat_per_item`
expressions of the source. -/
def itemLoop (refunds : List Refund) (tmpl : Bool) (user_type : String) (buyer_name : String) :
    List LineItem → ItemAcc → ItemAcc × Bool
  | [], acc => (acc, true)
  | item :: rest, acc =>
    match item.name with
    | none => (acc, false)
    | some item_name =>
      match item.total.toFloat with
      | none => (acc, false)
      | some _item_total_price =>
        if effQty refunds item ≤ 0 then itemLoop refunds tmpl user_type buyer_name rest acc
        else
          let acc' : ItemAcc :=
            { item_names := acc.item_names ++ [item_name]
              item_quantities := acc.item_quantities ++ [toString (effQty refunds item)]
              item_prices_no_tax := acc.item_prices_no_tax ++
                [fmtComma (priceNoTaxPer refunds item * (effQty refunds item : Rat))]
              item_vat_amounts := acc.item_vat_amounts ++
                [fmtComma (vatPer refunds item * (effQty refunds item : Rat))]
              total_items_vat :=
                acc.total_items_vat + vatPer refunds item * (effQty refunds item : Rat)
              total_items_price_no_tax :=
                acc.total_items_price_no_tax + priceNoTaxPer refunds item * (effQty refunds item : Rat)
              writes := acc.writes ++
                (if tmpl && (user_type == "individual") then
                  rowCells acc.current_row item_name (effQty refunds item)
                    (priceNoTaxPer refunds item) buyer_name
                 else [])
              current_row := acc.current_row +
                (if tmpl && (user_type == "individual") then 1 else 0) }
          itemLoop refunds tmpl user_type buyer_name rest acc'

/-- The line-item phase of one order. -/
def itemPhase (tmpl : Bool) (o : Order) (startRow : Nat) : ItemAcc × Bool :=
  itemLoop o.refunds tmpl (userTypeOf o) (get_buyer_name o) o.line_items (emptyAcc startRow)

/-- `sum(float(refund.get('total', 0)) for refund in order.get('refunds', []))`;
`none` models a `float` coercion exception. -/
def order_refund_total (refunds : List Refund) : Option Rat :=
  refunds.foldl (fun acc r =>
    match acc, r.total.toFloat with
    | some s, some t => some (s + t)
    | _, _ => none) (some 0)

/-- `sum(float(item.get('total', 0)) for item in order.get('line_items', []))`. -/
def sum_item_totals (items : List LineItem) : Option Rat :=
  items.foldl (fun acc it =>
    match acc, it.total.toFloat with
    | some s, some t => some (s + t)
    | _, _ => none) (some 0)

def shippingMethodOf (o : Order) : String :=
  match o.shipping_lines with
  | [] => ""
  | s :: _ => s.method_title

def shippingTotalOf (o : Order) : Option Rat :=
  match o.shipping_lines with
  | [] => some 0
  | s :: _ => s.total.toFloat

/-- The display order number: a custom metadata value or the internal id. -/
inductive OrderNumber where
  | custom (v : String)
  | internal (id : Int)
deriving DecidableEq, Repr, Inhabited

def keyIsOrderNumber (m : MetaEntry) : Bool :=
  m.key == "_wc_order_number" || m.key == "_order_number"

/-- `next((meta['value'] for meta in meta_data if meta['key'] in
['_wc_order_number', '_order_number']), order.get('id'))`. -/
def custom_order_number (o : Order) : OrderNumber :=
  match o.meta_data.find? keyIsOrderNumber with
  | some m => .custom m.value
  | none => .internal o.id

def companyNameOf (o : Order) : String :=
  if userTypeOf o = "corporate" then o.billing.company else ""

def nationalIdOf (o : Order) : String :=
  if userTypeOf o = "corporate" then metaValueD o.meta_data "_co_national_id" "" else ""

def registerIdOf (o : Order) : String :=
  if userTypeOf o = "corporate" then metaValueD o.meta_data "_register_id" "" else ""

/-- One row of the main report (`order_row` in the source).  The three-plus-one
per-item fields are kept as the per-item string lists; in the spreadsheet cell
they are serialized as `"\n".join(...)` (see the `..._cell` accessors). -/
structure ReportRow where
  order_number : OrderNumber
  date_jalali : String
  first_name : String
  last_name : String
  company_name : String
  national_id : String
  register_id : String
  address : String
  city : String
  postcode : String
  phone : String
  payment_method_title : String
  discount_total : Rat
  total_with_tax : Rat
  total_no_tax : Rat
  total_vat : Rat
  shipping_method : String
  shipping_total : Rat
  refund_total : Rat
  net_after_refund : Rat
  item_names : List String
  item_quantities : List String
  item_prices_no_tax : List String
  item_vat_amounts : List String
  items_cost_sum : Rat
deriving DecidableEq, Repr, Inhabited

/-- `"\n".join(lines)`. -/
def joinLines (lines : List String) : String := String.intercalate "\n" lines

def ReportRow.item_names_cell (r : ReportRow) : String := joinLines r.item_names

def ReportRow.item_quantities_cell (r : ReportRow) : String := joinLines r.item_quantities

def ReportRow.item_prices_no_tax_cell (r : ReportRow) : String := joinLines r.item_prices_no_tax

def ReportRow.item_vat_amounts_cell (r : ReportRow) : String := joinLines r.item_vat_amounts

/-- Processing of one order inside the `for order in orders_data` loop:
returns the template cell writes performed, the report row (`none` when any
exception was caught and the order skipped), and the final
`current_row_for_template`.  `jconv` is the external
`jdatetime.fromgregorian` + `strftime('%Y/%m/%d %H:%M:%S')` conversion;
`tmpl` is whether the template workbook and its body sheet are available. -/
def processOrder (jconv : DateTime → String) (tmpl : Bool) (startRow : Nat) (o : Order) :
    List CellWrite × Option ReportRow × Nat :=
  match itemPhase tmpl o startRow with
  | (acc, false) => (acc.writes, none, acc.current_row)
  | (acc, true) =>
    match order_refund_total o.refunds with
    | none => (acc.writes, none, acc.current_row)
    | some refund_total =>
      match o.date_created with
      | none => (acc.writes, none, acc.current_row)
      | some ds =>
        match parseDateTime ds with
        | none => (acc.writes, none, acc.current_row)
        | some dt =>
          match o.discount_total.toFloat, o.total.toFloat, shippingTotalOf o,
              sum_item_totals o.line_items with
          | some discount, some total, some shipping_total, some items_cost =>
            (acc.writes,
             some { order_number := custom_order_number o
                    date_jalali := jconv dt
                    first_name := o.billing.first_name
                    last_name := o.billing.last_name
                    company_name := companyNameOf o
                    national_id := nationalIdOf o
                    register_id := registerIdOf o
                    address := pyStrip (o.billing.address_1 ++ " " ++ o.billing.address_2)
                    city := o.billing.city
                    postcode := o.billing.postcode
                    phone := o.billing.phone
                    payment_method_title := o.payment_method_title
                    discount_total := discount
                    total_with_tax := total
                    total_no_tax := acc.total_items_price_no_tax
                    total_vat := acc.total_items_vat
                    shipping_method := shippingMethodOf o
                    shipping_total := shipping_total
                    refund_total := refund_total
                    net_after_refund := total - refund_total
                    item_names := acc.item_names
                    item_quantities := acc.item_quantities
                    item_prices_no_tax := acc.item_prices_no_tax
                    item_vat_amounts := acc.item_vat_amounts
                    items_cost_sum := items_cost },
             acc.current_row)
          | _, _, _, _ => (acc.writes, none, acc.current_row)

/-- The report row produced for one order, if any. -/
def normalizeRow (jconv : DateTime → String) (tmpl : Bool) (startRow : Nat) (o : Order) :
    Option ReportRow :=
  (processOrder jconv tmpl startRow o).2.1

/-- The whole `for order in orders_data` loop, threading
`current_row_for_template` through the orders: returns all template cell
writes, the rows of `processed_data` in source order, and the ids of the
orders skipped by the `except` handler (each is logged with its id). -/
def processAll (jconv : DateTime → String) (tmpl : Bool) :
    List Order → Nat → List CellWrite × List ReportRow × List Int
  | [], _ => ([], [], [])
  | o :: rest, curRow =>
    let res := processOrder jconv tmpl curRow o
    let next := processAll jconv tmpl rest res.2.2
    (res.1 ++ next.1,
     (match res.2.1 with
      | some r => r :: next.2.1
      | none => next.2.1),
     (match res.2.1 with
      | some _ => next.2.2
      | none => o.id :: next.2.2))

/-- The sort key of `df.sort_values(by="تاریخ سفارش (شمسی)", ascending=True)`. -/
def dateLE (a b : ReportRow) : Prop := a.date_jalali ≤ b.date_jalali

instance : DecidableRel dateLE :=
  fun a b => inferInstanceAs (Decidable (a.date_jalali ≤ b.date_jalali))

instance : IsTrans ReportRow dateLE :=
  ⟨fun _ _ _ h1 h2 => le_trans h1 h2⟩

instance : IsTotal ReportRow dateLE :=
  ⟨fun a b => le_total a.date_jalali b.date_jalali⟩

def START_ROW_BODY : Nat := 2

/-- `ExcelReporter.create_excel_report`: process every order (threading the
template row counter from `START_ROW_BODY`), then sort the collected rows
ascending by the display date string. -/
def create_excel_report (jconv : DateTime → String) (tmpl : Bool) (orders : List Order) :
    List CellWrite × List ReportRow × List Int :=
  let res := processAll jconv tmpl orders START_ROW_BODY
  (res.1, List.insertionSort dateLE res.2.1, res.2.2)

/-- The template cell writes that a run of surviving line items produces,
one row of seven cells per item, at consecutive row indices. -/
def expectedTemplateWrites (refunds : List Refund) (buyer_name : String) :
    Nat → List LineItem → List CellWrite
  | _, [] => []
  | startRow, it :: rest =>
    rowCells startRow (it.name.getD "") (effQty refunds it) (priceNoTaxPer refunds it)
        buyer_name ++
      expectedTemplateWrites refunds buyer_name (startRow + 1) rest

/-! ### Column-width styling -/

/-- `len(str(v).split('\n')[0])`: the length of the first line of a cell. -/
def firstLineLen (v : String) : Nat := ((splitOnChar '\n' v.data).headD []).length

/-- The length of the longest line of a cell (the inner loop of the older
revision in `main.py`). -/
def maxLineLen (v : String) : Nat := ((splitOnChar '\n' v.data).map List.length).foldl max 0

/-- The column width set by `excel_reporter.py` for a column whose non-empty
cells hold the given strings: `min(max(len(str(c).split('\n')[0])) + 2, 70)`. -/
def colWidthER (vals : List String) : Nat :=
  min (((vals.map firstLineLen).foldl max 0) + 2) 70

/-- The column width set by the older revision `main.py`: the longest single
line across all lines of all cells, plus 2, capped at 70. -/
def colWidthMain (vals : List String) : Nat :=
  min (((vals.map maxLineLen).foldl max 0) + 2) 70

/-! ### Unique template file name -/

def templateBaseName (dateStr : String) : String := "tis-" ++ dateStr ++ ".xlsx"

def templateSuffixName (dateStr : String) (counter : Nat) : String :=
  "tis-" ++ dateStr ++ "_" ++ natToStr counter ++ ".xlsx"

/-- The `while os.path.exists(unique): unique = f"tis-{date}_{counter}.xlsx";
counter += 1` loop, with enough fuel that it never runs out (at most
`existing.length` candidates can be taken). -/
def findUniqueNameGo (existing : List String) (dateStr : String) :
    Nat → Nat → String → String
  | 0, _, cur => cur
  | fuel + 1, counter, cur =>
    if cur ∈ existing then
      findUniqueNameGo existing dateStr fuel (counter + 1) (templateSuffixName dateStr counter)
    else cur

/-- The unique output filename chosen for the templated report, given the
set of files already on disk. -/
def findUniqueName (existing : List String) (dateStr : String) : String :=
  findUniqueNameGo existing dateStr (existing.length + 1) 1 (templateBaseName dateStr)

/-! ### Concrete sample inputs used to instantiate the theorems -/

/-- A concrete stand-in for the external Jalali conversion + `strftime`. -/
def sampleJconv (d : DateTime) : String :=
  natToStr d.year ++ "/" ++ natToStr d.month ++ "/" ++ natToStr d.day ++ " " ++
    natToStr d.hour ++ ":" ++ natToStr d.minute ++ ":" ++ natToStr d.second

def sampleBilling : Billing :=
  { first_name := "Ali", last_name := "Reza", company := "", address_1 := "St 1",
    address_2 := "", city := "Tehran", postcode := "123", phone := "0912" }

def sampleItem1 : LineItem :=
  { name := some "Widget", quantity := 3, total := .num 330, product_id := some 1,
    variation_id := none }

def sampleItem2 : LineItem :=
  { name := some "Gadget", quantity := 1, total := .num 110, product_id := some 2,
    variation_id := none }

def sampleRefunds : List Refund :=
  [{ total := .num (-110),
     line_items := [{ product_id := some 1, variation_id := none, qty := 1 }] }]

/-- An individual-category order with two line items (quantities 3 and 1) and
one refund covering one unit of the first item. -/
def sampleOrder : Order :=
  { id := 101, date_created := some "2025-06-15T10:20:30", billing := sampleBilling,
    payment_method_title := "card", discount_total := .num 0, total := .num 440,
    line_items := [sampleItem1, sampleItem2], refunds := sampleRefunds,
    meta_data := [{ key := "_order_number", value := "A-77" }], shipping_lines := [] }

/-- An individual-category order whose line items process fine but whose
`date_created` is malformed, so normalization fails after the template rows
were written. -/
def sampleBadDateOrder : Order :=
  { id := 202, date_created := some "not-a-date", billing := sampleBilling,
    payment_method_title := "", discount_total := .num 0, total := .num 110,
    line_items := [sampleItem1], refunds := [], meta_data := [], shipping_lines := [] }

/-- A corporate order (key `_user_type`), with corporate tax identifiers. -/
def sampleCorpOrder : Order :=
  { id := 303, date_created := some "2025-06-15T08:00:00",
    billing := { sampleBilling with company := "Acme" },
    payment_method_title := "", discount_total := .num 0, total := .num 110,
    line_items := [sampleItem2], refunds := [],
    meta_data := [{ key := "_user_type", value := "corporate" },
                  { key := "_co_national_id", value := "N1" },
                  { key := "_register_id", value := "R1" }],
    shipping_lines := [] }

/-- An order whose metadata uses the bare key `user_type` (no underscore),
tagged corporate, with a billing company name. -/
def sampleBareKeyOrder : Order :=
  { id := 404, date_created := some "2025-06-15T09:00:00",
    billing := { sampleBilling with company := "Acme", first_name := "A", last_name := "B" },
    payment_method_title := "", discount_total := .num 0, total := .num 110,
    line_items := [sampleItem2], refunds := [],
    meta_data := [{ key := "user_type", value := "corporate" },
                  { key := "_co_national_id", value := "N1" }],
    shipping_lines := [] }

/-- An order carrying both custom order-number keys. -/
def sampleNumberedOrder : Order :=
  { sampleOrder with
    id := 505,
    meta_data := [{ key := "foo", value := "x" },
                  { key := "_wc_order_number", value := "555" },
                  { key := "_order_number", value := "666" }] }

/-- An order carrying neither custom order-number key. -/
def sampleUnnumberedOrder : Order :=
  { sampleOrder with
    id := 77, meta_data := [{ key := "foo", value := "x" }] }

/-- The report row computed for `sampleOrder`. -/
def sampleRow : ReportRow :=
  (normalizeRow sampleJconv true START_ROW_BODY sampleOrder).getD default

/-- The report row computed for `sampleCorpOrder`. -/
def sampleCorpRow : ReportRow :=
  (normalizeRow sampleJconv true START_ROW_BODY sampleCorpOrder).getD default

/-- The report row computed for `sampleBareKeyOrder`. -/
def sampleBareKeyRow : ReportRow :=
  (normalizeRow sampleJconv true START_ROW_BODY sampleBareKeyOrder).getD default


/-- The item-loop accumulator computed for `sampleOrder`. -/
def sampleAcc : ItemAcc := (itemPhase true sampleOrder START_ROW_BODY).1

/-! ### Helper lemmas -/

lemma string_data_ext {s t : String} (h : s.data = t.data) : s = t := by
  cases s; cases t; exact congrArg String.mk h

lemma refund_inner_foldl (item : LineItem) (l : List RefundLineItem) :
    ∀ a : Int,
      l.foldl (fun acc2 ri => if riMatches ri item then acc2 + ri.qty else acc2) a =
        a + ((l.filter (fun ri => riMatches ri item)).map RefundLineItem.qty).sum := by
  induction l with
  | nil => intro a; simp
  | cons ri t ih =>
    intro a
    by_cases h : riMatches ri item
    · simp [List.foldl_cons, h, ih, List.filter_cons, add_assoc]
    · simp [List.foldl_cons, h, ih, List.filter_cons]

lemma refund_outer_foldl (item : LineItem) (refunds : List Refund) :
    ∀ a : Int,
      refunds.foldl (fun acc refund =>
          refund.line_items.foldl
            (fun acc2 ri => if riMatches ri item then acc2 + ri.qty else acc2) acc) a =
        a + (((refunds.map Refund.line_items).flatten.filter
            (fun ri => riMatches ri item)).map RefundLineItem.qty).sum := by
  induction refunds with
  | nil => intro a; simp
  | cons r t ih =>
    intro a
    rw [List.foldl_cons, refund_inner_foldl, ih]
    simp [List.filter_append, add_assoc]

/-- `refunded_qty_for_this_item` is the sum of the matching refunded
quantities across all of the order's refunds. -/
lemma refunded_qty_eq_sum (refunds : List Refund) (item : LineItem) :
    refunded_qty_for_item refunds item =
      (((refunds.map Refund.line_items).flatten.filter
          (fun ri => riMatches ri item)).map RefundLineItem.qty).sum := by
  simpa [refunded_qty_for_item] using refund_outer_foldl item refunds 0

/-- Full characterization of a successful run of the line-item loop: every
per-item list gains exactly one entry per surviving item, in `line_items`
order; the running totals gain the corresponding sums; template writes and
the row counter advance only when the template is active and the buyer is
an individual. -/
lemma itemLoop_ok (refunds : List Refund) (tmpl : Bool) (ut bn : String) :
    ∀ (items : List LineItem) (acc res : ItemAcc),
      itemLoop refunds tmpl ut bn items acc = (res, true) →
      res.item_names = acc.item_names ++
        (survivors refunds items).map (fun it => it.name.getD "") ∧
      res.item_quantities = acc.item_quantities ++
        (survivors refunds items).map (fun it => toString (effQty refunds it)) ∧
      res.item_prices_no_tax = acc.item_prices_no_tax ++
        (survivors refunds items).map
          (fun it => fmtComma (priceNoTaxPer refunds it * (effQty refunds it : Rat))) ∧
      res.item_vat_amounts = acc.item_vat_amounts ++
        (survivors refunds items).map
          (fun it => fmtComma (vatPer refunds it * (effQty refunds it : Rat))) ∧
      res.total_items_price_no_tax = acc.total_items_price_no_tax +
        ((survivors refunds items).map
          (fun it => priceNoTaxPer refunds it * (effQty refunds it : Rat))).sum ∧
      res.total_items_vat = acc.total_items_vat +
        ((survivors refunds items).map
          (fun it => vatPer refunds it * (effQty refunds it : Rat))).sum ∧
      res.writes = acc.writes ++
        (if tmpl && (ut == "individual") then
          expectedTemplateWrites refunds bn acc.current_row (survivors refunds items)
         else []) ∧
      res.current_row = acc.current_row +
        (if tmpl && (ut == "individual") then (survivors refunds items).length else 0) := by
  intro items
  induction items with
  | nil =>
    intro acc res h
    simp only [itemLoop, Prod.mk.injEq] at h
    obtain ⟨h1, _⟩ := h
    subst h1
    simp [survivors, expectedTemplateWrites]
  | cons item rest ih =>
    intro acc res h
    rw [itemLoop] at h
    cases hn : item.name with
    | none => rw [hn] at h; simp at h
    | some nm =>
      rw [hn] at h
      dsimp only at h
      cases ht : item.total.toFloat with
      | none => rw [ht] at h; simp at h
      | some tp =>
        rw [ht] at h
        dsimp only at h
        by_cases he : effQty refunds item ≤ 0
        · rw [if_pos he] at h
          have hnot : ¬ 0 < effQty refunds item := by omega
          have hs : survivors refunds (item :: rest) = survivors refunds rest := by
            simp [survivors, List.filter_cons, hnot]
          rw [hs]
          exact ih acc res h
        · rw [if_neg he] at h
          have hpos : 0 < effQty refunds item := by omega
          have hs : survivors refunds (item :: rest) = item :: survivors refunds rest := by
            simp [survivors, List.filter_cons, hpos]
          obtain ⟨H1, H2, H3, H4, H5, H6, H7, H8⟩ := ih _ res h
          rw [hs]
          simp only [List.map_cons, List.sum_cons, expectedTemplateWrites, List.length_cons] at *
          refine ⟨?_, ?_, ?_, ?_, ?_, ?_, ?_, ?_⟩
          · rw [H1]; simp [hn, List.append_assoc]
          · rw [H2]; simp [List.append_assoc]
          · rw [H3]; simp [List.append_assoc]
          · rw [H4]; simp [List.append_assoc]
          · rw [H5]; ring
          · rw [H6]; ring
          · rw [H7]
            by_cases hd : (tmpl && (ut == "individual")) = true
            · simp only [hd, if_true]
              simp [hn, List.append_assoc]
            · simp only [Bool.not_eq_true] at hd
              simp [hd]
          · rw [H8]
            by_cases hd : (tmpl && (ut == "individual")) = true
            · simp [hd]; omega
            · simp only [Bool.not_eq_true] at hd
              simp [hd]

/-- The success flag and the row-relevant fields of the item loop do not
depend on the template-row counter or on the writes made so far. -/
lemma itemLoop_core (refunds : List Refund) (tmpl : Bool) (ut bn : String) :
    ∀ (items : List LineItem) (acc₁ acc₂ : ItemAcc),
      acc₁.item_names = acc₂.item_names →
      acc₁.item_quantities = acc₂.item_quantities →
      acc₁.item_prices_no_tax = acc₂.item_prices_no_tax →
      acc₁.item_vat_amounts = acc₂.item_vat_amounts →
      acc₁.total_items_vat = acc₂.total_items_vat →
      acc₁.total_items_price_no_tax = acc₂.total_items_price_no_tax →
      (itemLoop refunds tmpl ut bn items acc₁).2 = (itemLoop refunds tmpl ut bn items acc₂).2 ∧
      (itemLoop refunds tmpl ut bn items acc₁).1.item_names =
        (itemLoop refunds tmpl ut bn items acc₂).1.item_names ∧
      (itemLoop refunds tmpl ut bn items acc₁).1.item_quantities =
        (itemLoop refunds tmpl ut bn items acc₂).1.item_quantities ∧
      (itemLoop refunds tmpl ut bn items acc₁).1.item_prices_no_tax =
        (itemLoop refunds tmpl ut bn items acc₂).1.item_prices_no_tax ∧
      (itemLoop refunds tmpl ut bn items acc₁).1.item_vat_amounts =
        (itemLoop refunds tmpl ut bn items acc₂).1.item_vat_amounts ∧
      (itemLoop refunds tmpl ut bn items acc₁).1.total_items_vat =
        (itemLoop refunds tmpl ut bn items acc₂).1.total_items_vat ∧
      (itemLoop refunds tmpl ut bn items acc₁).1.total_items_price_no_tax =
        (itemLoop refunds tmpl ut bn items acc₂).1.total_items_price_no_tax := by
  intro items
  induction items with
  | nil =>
    intro a1 a2 e1 e2 e3 e4 e5 e6
    dsimp only [itemLoop]
    exact ⟨rfl, e1, e2, e3, e4, e5, e6⟩
  | cons item rest ih =>
    intro a1 a2 e1 e2 e3 e4 e5 e6
    rw [itemLoop]
    rw [itemLoop]
    cases hn : item.name with
    | none => exact ⟨rfl, e1, e2, e3, e4, e5, e6⟩
    | some nm =>
      dsimp only
      cases ht : item.total.toFloat with
      | none => exact ⟨rfl, e1, e2, e3, e4, e5, e6⟩
      | some tp =>
        dsimp only
        by_cases he : effQty refunds item ≤ 0
        · rw [if_pos he, if_pos he]
          exact ih a1 a2 e1 e2 e3 e4 e5 e6
        · rw [if_neg he, if_neg he]
          exact ih _ _ (by dsimp only; rw [e1]) (by dsimp only; rw [e2])
            (by dsimp only; rw [e3]) (by dsimp only; rw [e4])
            (by dsimp only; rw [e5]) (by dsimp only; rw [e6])

/-- Whatever happens after the item loop, the template cell writes of an
order are exactly those made by the item loop. -/
lemma processOrder_writes (j : DateTime → String) (t : Bool) (n : Nat) (o : Order) :
    (processOrder j t n o).1 = (itemPhase t o n).1.writes := by
  rcases h : itemPhase t o n with ⟨acc, f⟩
  simp only [processOrder, h]
  cases f
  · rfl
  · dsimp only
    split
    · rfl
    · split
      · rfl
      · split
        · rfl
        · split <;> rfl

/-- The report row of an order does not depend on the starting template row
index. -/
lemma processOrder_row_indep (j : DateTime → String) (t : Bool) (n m : Nat) (o : Order) :
    (processOrder j t n o).2.1 = (processOrder j t m o).2.1 := by
  have C := itemLoop_core o.refunds t (userTypeOf o) (get_buyer_name o) o.line_items
    (emptyAcc n) (emptyAcc m) rfl rfl rfl rfl rfl rfl
  rcases h1 : itemLoop o.refunds t (userTypeOf o) (get_buyer_name o) o.line_items (emptyAcc n)
    with ⟨acc1, f1⟩
  rcases h2 : itemLoop o.refunds t (userTypeOf o) (get_buyer_name o) o.line_items (emptyAcc m)
    with ⟨acc2, f2⟩
  rw [h1, h2] at C
  obtain ⟨hf, c1, c2, c3, c4, c5, c6⟩ := C
  dsimp only at hf c1 c2 c3 c4 c5 c6
  have hp1 : itemPhase t o n = (acc1, f1) := h1
  have hp2 : itemPhase t o m = (acc2, f2) := h2
  simp only [processOrder, hp1, hp2]
  subst hf
  cases f1
  · rfl
  · dsimp only
    split
    · rfl
    · split
      · rfl
      · split
        · rfl
        · split <;> simp [c1, c2, c3, c4, c5, c6]

/-- Decomposition of a successfully normalized order: the item loop
succeeded and the row's fields are the loop's accumulator fields together
with the metadata-derived fields. -/
lemma normalizeRow_parts (j : DateTime → String) (t : Bool) (n : Nat) (o : Order)
    (row : ReportRow) (h : normalizeRow j t n o = some row) :
    ∃ acc, itemPhase t o n = (acc, true) ∧
      row.item_names = acc.item_names ∧
      row.item_quantities = acc.item_quantities ∧
      row.item_prices_no_tax = acc.item_prices_no_tax ∧
      row.item_vat_amounts = acc.item_vat_amounts ∧
      row.total_no_tax = acc.total_items_price_no_tax ∧
      row.total_vat = acc.total_items_vat ∧
      row.company_name = companyNameOf o ∧
      row.national_id = nationalIdOf o ∧
      row.register_id = registerIdOf o ∧
      row.order_number = custom_order_number o := by
  rcases hi : itemPhase t o n with ⟨acc, f⟩
  simp only [normalizeRow, processOrder, hi] at h
  cases f
  · simp at h
  · dsimp only at h
    refine ⟨acc, rfl, ?_⟩
    rcases hr : order_refund_total o.refunds with _ | rt <;> rw [hr] at h
    · simp at h
    · dsimp only at h
      rcases hd : o.date_created with _ | ds <;> rw [hd] at h
      · simp at h
      · dsimp only at h
        rcases hp : parseDateTime ds with _ | dt <;> rw [hp] at h
        · simp at h
        · dsimp only at h
          rcases h1 : o.discount_total.toFloat with _ | v1 <;> rw [h1] at h <;>
            rcases h2 : o.total.toFloat with _ | v2 <;> rw [h2] at h <;>
            rcases h3 : shippingTotalOf o with _ | v3 <;> rw [h3] at h <;>
            rcases h4 : sum_item_totals o.line_items with _ | v4 <;> rw [h4] at h <;>
            dsimp only at h <;> try simp at h
          subst h
          exact ⟨rfl, rfl, rfl, rfl, rfl, rfl, rfl, rfl, rfl, rfl⟩

/-- The loop over all orders collects exactly one row per successfully
normalized order (in source order) and logs the id of every skipped one,
regardless of the threaded template row counter. -/
lemma processAll_spec (j : DateTime → String) (t : Bool) :
    ∀ (orders : List Order) (n : Nat),
      (processAll j t orders n).2.1 =
        orders.filterMap (fun o => normalizeRow j t START_ROW_BODY o) ∧
      (processAll j t orders n).2.2 =
        (orders.filter (fun o => (normalizeRow j t START_ROW_BODY o).isNone)).map Order.id := by
  intro orders
  induction orders with
  | nil => intro n; simp [processAll]
  | cons o rest ih =>
    intro n
    rw [processAll]
    obtain ⟨ih1, ih2⟩ := ih (processOrder j t n o).2.2
    have hrow : (processOrder j t n o).2.1 = normalizeRow j t START_ROW_BODY o :=
      processOrder_row_indep j t n START_ROW_BODY o
    cases hx : normalizeRow j t START_ROW_BODY o with
    | none =>
      rw [hx] at hrow
      dsimp only
      rw [hrow]
      constructor
      · rw [ih1, List.filterMap_cons, hx]
      · rw [ih2, List.filter_cons]
        simp [hx]
    | some r =>
      rw [hx] at hrow
      dsimp only
      rw [hrow]
      constructor
      · rw [ih1, List.filterMap_cons, hx]
      · rw [ih2, List.filter_cons]
        simp [hx]

/-- When the template is inactive or the buyer is not an individual, the
item loop performs no template cell writes, whether or not it succeeds. -/
lemma itemLoop_writes_off (refunds : List Refund) (tmpl : Bool) (ut bn : String)
    (hoff : (tmpl && (ut == "individual")) = false) :
    ∀ (items : List LineItem) (acc : ItemAcc),
      (itemLoop refunds tmpl ut bn items acc).1.writes = acc.writes := by
  intro items
  induction items with
  | nil => intro acc; rfl
  | cons item rest ih =>
    intro acc
    rw [itemLoop]
    cases hn : item.name with
    | none => rfl
    | some nm =>
      dsimp only
      cases ht : item.total.toFloat with
      | none => rfl
      | some tp =>
        dsimp only
        by_cases he : effQty refunds item ≤ 0
        · rw [if_pos he]; exact ih acc
        · rw [if_neg he]
          rw [ih _]
          dsimp only
          rw [hoff]
          simp

/-- `next(...)` on a key predicate returns the first matching entry. -/
lemma find?_first {α : Type} (p : α → Bool) (m : α) :
    ∀ (pre post : List α), (∀ x ∈ pre, p x = false) → p m = true →
      List.find? p (pre ++ m :: post) = some m := by
  intro pre
  induction pre with
  | nil =>
    intro post _ hm
    simpa using List.find?_cons_of_pos post hm
  | cons a t ih =>
    intro post h hm
    have ha : p a = false := h a (by simp)
    rw [List.cons_append, List.find?_cons_of_neg _ (by simp [ha])]
    exact ih post (fun x hx => h x (by simp [hx])) hm

/-- The fuelled digit extractor agrees with `Nat.digits` once the fuel
covers the number. -/
lemma natDigitsRev_eq_digits : ∀ (fuel n : Nat), n ≤ fuel →
    natDigitsRev fuel n = Nat.digits 10 n := by
  intro fuel
  induction fuel with
  | zero =>
    intro n h
    have : n = 0 := by omega
    subst this
    simp [natDigitsRev]
  | succ f ih =>
    intro n h
    rw [natDigitsRev]
    by_cases h0 : n = 0
    · subst h0; simp
    · rw [if_neg h0]
      have hlt : n / 10 < n := Nat.div_lt_self (Nat.pos_of_ne_zero h0) (by norm_num)
      rw [ih (n / 10) (by omega)]
      rw [Nat.digits_def' (by norm_num : (1 : Nat) < 10) (Nat.pos_of_ne_zero h0)]

lemma digitChar_inj : ∀ a < 10, ∀ b < 10, Nat.digitChar a = Nat.digitChar b → a = b := by
  decide

lemma map_digitChar_inj : ∀ (l₁ l₂ : List Nat), (∀ d ∈ l₁, d < 10) → (∀ d ∈ l₂, d < 10) →
    l₁.map Nat.digitChar = l₂.map Nat.digitChar → l₁ = l₂ := by
  intro l₁
  induction l₁ with
  | nil =>
    intro l₂ _ _ h
    cases l₂ with
    | nil => rfl
    | cons b u => simp at h
  | cons a t ih =>
    intro l₂ h1 h2 h
    cases l₂ with
    | nil => simp at h
    | cons b u =>
      simp only [List.map_cons, List.cons.injEq] at h
      have hab : a = b := digitChar_inj a (h1 a (by simp)) b (h2 b (by simp)) h.1
      subst hab
      rw [ih u (fun d hd => h1 d (by simp [hd])) (fun d hd => h2 d (by simp [hd])) h.2]

/-- Decimal rendering is injective. -/
lemma natToStr_inj : ∀ a b : Nat, natToStr a = natToStr b → a = b := by
  have key : ∀ b : Nat, b ≠ 0 → natToStr 0 = natToStr b → False := by
    intro b hb h
    rw [natToStr, natToStr, if_pos rfl, if_neg hb, natDigitsRev_eq_digits b b le_rfl] at h
    have hd : (List.cons '0' []) = ((Nat.digits 10 b).map Nat.digitChar).reverse :=
      congrArg String.data h
    have h2 : (Nat.digits 10 b).map Nat.digitChar = ['0'] := by
      rw [← List.reverse_reverse ((Nat.digits 10 b).map Nat.digitChar), ← hd]
      rfl
    have h3 : Nat.digits 10 b = [0] := by
      apply map_digitChar_inj _ [0]
      · intro d hd2; exact Nat.digits_lt_base (by norm_num) hd2
      · intro d hd2; simp at hd2; omega
      · simpa using h2
    have h4 := Nat.ofDigits_digits 10 b
    rw [h3] at h4
    simp [Nat.ofDigits] at h4
    exact hb h4.symm
  intro a b h
  by_cases ha : a = 0 <;> by_cases hb : b = 0
  · omega
  · subst ha; exact absurd (key b hb h) not_false
  · subst hb; exact absurd (key a ha h.symm) not_false
  · rw [natToStr, natToStr, if_neg ha, if_neg hb,
      natDigitsRev_eq_digits a a le_rfl, natDigitsRev_eq_digits b b le_rfl] at h
    have hd : ((Nat.digits 10 a).map Nat.digitChar).reverse =
        ((Nat.digits 10 b).map Nat.digitChar).reverse := congrArg String.data h
    have h2 := List.reverse_inj.mp hd
    have h3 : Nat.digits 10 a = Nat.digits 10 b := by
      apply map_digitChar_inj _ _ ?_ ?_ h2
      · intro d hd2; exact Nat.digits_lt_base (by norm_num) hd2
      · intro d hd2; exact Nat.digits_lt_base (by norm_num) hd2
    have h4 := congrArg (Nat.ofDigits 10) h3
    simpa [Nat.ofDigits_digits] using h4

lemma natToStr_length_pos (n : Nat) : 0 < (natToStr n).data.length := by
  rw [natToStr]
  by_cases h : n = 0
  · simp [h]
  · rw [if_neg h]
    have hne : Nat.digits 10 n ≠ [] := Nat.digits_ne_nil_iff_ne_zero.mpr h
    have : 0 < (Nat.digits 10 n).length := List.length_pos.mpr hne
    simpa [natDigitsRev_eq_digits n n le_rfl] using this

lemma templateBase_ne_suffix (ds : String) (k : Nat) :
    templateBaseName ds ≠ templateSuffixName ds k := by
  intro h
  have hd := congrArg String.data h
  simp only [templateBaseName, templateSuffixName, String.data_append] at hd
  have hlen := congrArg List.length hd
  simp only [List.length_append] at hlen
  have h1 := natToStr_length_pos k
  have h2 : ("_" : String).data.length = 1 := rfl
  omega

lemma templateSuffixName_inj (ds : String) (a b : Nat)
    (h : templateSuffixName ds a = templateSuffixName ds b) : a = b := by
  have hd := congrArg String.data h
  simp only [templateSuffixName, String.data_append, List.append_assoc] at hd
  have h1 := List.append_cancel_left hd
  have h2 := List.append_cancel_left h1
  have h3 := List.append_cancel_left h2
  have h4 := List.append_cancel_right h3
  exact natToStr_inj a b (string_data_ext h4)

lemma suffix_map_nodup (ds : String) (fuel counter : Nat) :
    ((List.range fuel).map (fun i => templateSuffixName ds (counter + i))).Nodup := by
  apply List.Nodup.map ?_ (List.nodup_range fuel)
  intro x y hxy
  have := templateSuffixName_inj ds (counter + x) (counter + y) hxy
  omega

lemma cands_nodup (ds : String) (fuel counter : Nat) (cur : String)
    (hcur : ∀ k, cur ≠ templateSuffixName ds k) :
    (cur :: (List.range fuel).map (fun i => templateSuffixName ds (counter + i))).Nodup := by
  refine List.nodup_cons.mpr ⟨?_, suffix_map_nodup ds fuel counter⟩
  intro hmem
  obtain ⟨i, _, hi⟩ := List.mem_map.mp hmem
  exact hcur _ hi.symm

/-- If fewer of the next `fuel + 1` pairwise-distinct candidate names are
taken than the remaining fuel allows, the search loop lands on a free name. -/
lemma findUniqueNameGo_notMem (existing : List String) (ds : String) :
    ∀ (fuel counter : Nat) (cur : String),
      (cur :: (List.range fuel).map (fun i => templateSuffixName ds (counter + i))).Nodup →
      ((cur :: (List.range fuel).map (fun i => templateSuffixName ds (counter + i))).filter
          (fun s => decide (s ∈ existing))).length ≤ fuel →
      findUniqueNameGo existing ds fuel counter cur ∉ existing := by
  intro fuel
  induction fuel with
  | zero =>
    intro counter cur _ hlen
    rw [findUniqueNameGo]
    intro hmem
    simp [List.filter_cons, hmem] at hlen
  | succ f ih =>
    intro counter cur hnd hlen
    rw [findUniqueNameGo]
    by_cases hc : cur ∈ existing
    · rw [if_pos hc]
      have hsplit : (List.range (f + 1)).map (fun i => templateSuffixName ds (counter + i)) =
          templateSuffixName ds counter ::
            (List.range f).map (fun i => templateSuffixName ds ((counter + 1) + i)) := by
        rw [List.range_succ_eq_map, List.map_cons, List.map_map]
        refine congrArg₂ List.cons (by rw [Nat.add_zero]) ?_
        apply List.map_congr_left
        intro i _
        show templateSuffixName ds (counter + (i + 1)) = templateSuffixName ds ((counter + 1) + i)
        congr 1
        omega
      rw [hsplit] at hnd hlen
      apply ih (counter + 1) (templateSuffixName ds counter) hnd.of_cons
      rw [List.filter_cons] at hlen
      simp [hc] at hlen
      omega
    · rw [if_neg hc]
      exact hc

/-- The name chosen by the collision-avoidance loop is never one of the
files already on disk. -/
lemma findUniqueName_notMem (existing : List String) (ds : String) :
    findUniqueName existing ds ∉ existing := by
  rw [findUniqueName]
  have hnd := cands_nodup ds (existing.length + 1) 1 (templateBaseName ds)
    (fun k => templateBase_ne_suffix ds k)
  apply findUniqueNameGo_notMem existing ds (existing.length + 1) 1 (templateBaseName ds) hnd
  have hfil := hnd.filter (fun s => decide (s ∈ existing))
  have hsub : ((templateBaseName ds ::
      (List.range (existing.length + 1)).map (fun i => templateSuffixName ds (1 + i))).filter
        (fun s => decide (s ∈ existing))) ⊆ existing := by
    intro x hx
    have := (List.mem_filter.mp hx).2
    simpa using this
  have := (hfil.subperm hsub).length_le
  omega

lemma expectedTemplateWrites_length (refunds : List Refund) (bn : String) :
    ∀ (svs : List LineItem) (startRow : Nat),
      (expectedTemplateWrites refunds bn startRow svs).length = 7 * svs.length := by
  intro svs
  induction svs with
  | nil => intro startRow; rfl
  | cons it rest ih =>
    intro startRow
    rw [expectedTemplateWrites]
    simp [rowCells, ih, List.length_append]
    ring

lemma expectedTemplateWrites_ne_nil (refunds : List Refund) (bn : String)
    (startRow : Nat) (it : LineItem) (rest : List LineItem) :
    expectedTemplateWrites refunds bn startRow (it :: rest) ≠ [] := by
  rw [expectedTemplateWrites]
  simp [rowCells]

/-- For an individual-buyer order whose item loop succeeded, the template
cell writes are exactly one seven-cell row per surviving line item. -/
lemma processOrder_writes_individual (j : DateTime → String) (n : Nat) (o : Order)
    (hok : (itemPhase true o n).2 = true) (hind : userTypeOf o = "individual") :
    (processOrder j true n o).1 =
      expectedTemplateWrites o.refunds (get_buyer_name o) n
        (survivors o.refunds o.line_items) := by
  rcases hi : itemPhase true o n with ⟨acc, f⟩
  rw [hi] at hok
  dsimp only at hok
  subst hok
  obtain ⟨_, _, _, _, _, _, H7, _⟩ := itemLoop_ok o.refunds true (userTypeOf o)
    (get_buyer_name o) o.line_items (emptyAcc n) acc hi
  have hw := processOrder_writes j true n o
  rw [hi] at hw
  dsimp only at hw
  have hcond : (true && (userTypeOf o == "individual")) = true := by
    simp [hind]
  rw [hw, H7, hcond]
  simp [emptyAcc]

/-- An order whose buyer category is not `individual` contributes no
template cell writes at all. -/
lemma processOrder_writes_nonindividual (j : DateTime → String) (n : Nat) (o : Order)
    (hne : userTypeOf o ≠ "individual") :
    (processOrder j true n o).1 = [] := by
  have hoff : (true && (userTypeOf o == "individual")) = false := by
    simp [hne]
  have hw := processOrder_writes j true n o
  rw [hw]
  have := itemLoop_writes_off o.refunds true (userTypeOf o) (get_buyer_name o) hoff
    o.line_items (emptyAcc n)
  simpa [itemPhase, emptyAcc] using this

/-! ### Claim theorems -/

/-- C1: for every order and line item, `refunded_qty` is the sum over all
refunds of the refunded quantities whose `(product_id, variation_id)` pair
matches the item (`variation_id` defaulting to `0` when absent on either
side — see `riMatches`), `effective_quantity = ordered_quantity -
refunded_qty`, and every item with `effective_quantity ≤ 0` is omitted
entirely from the per-item lists, which enumerate exactly the surviving
items in order. -/
theorem c1_refund_effective_quantity (refunds : List Refund) (item : LineItem)
    (t : Bool) (o : Order) (n : Nat) (acc : ItemAcc)
    (hok : itemPhase t o n = (acc, true)) :
    refunded_qty_for_item refunds item =
      (((refunds.map Refund.line_items).flatten.filter
          (fun ri => riMatches ri item)).map RefundLineItem.qty).sum ∧
    effQty refunds item = item.quantity - refunded_qty_for_item refunds item ∧
    acc.item_names = (survivors o.refunds o.line_items).map (fun it => it.name.getD "") ∧
    acc.item_quantities =
      (survivors o.refunds o.line_items).map (fun it => toString (effQty o.refunds it)) ∧
    acc.item_prices_no_tax = (survivors o.refunds o.line_items).map
      (fun it => fmtComma (priceNoTaxPer o.refunds it * (effQty o.refunds it : Rat))) ∧
    acc.item_vat_amounts = (survivors o.refunds o.line_items).map
      (fun it => fmtComma (vatPer o.refunds it * (effQty o.refunds it : Rat))) ∧
    (∀ it ∈ o.line_items, effQty o.refunds it ≤ 0 →
      it ∉ survivors o.refunds o.line_items) := by
  obtain ⟨H1, H2, H3, H4, _, _, _, _⟩ := itemLoop_ok o.refunds t (userTypeOf o)
    (get_buyer_name o) o.line_items (emptyAcc n) acc hok
  simp only [emptyAcc, List.nil_append] at H1 H2 H3 H4
  refine ⟨refunded_qty_eq_sum refunds item, rfl, H1, H2, H3, H4, ?_⟩
  intro it _ hle hmem
  have := (List.mem_filter.mp hmem).2
  simp at this
  omega

/-- C1 witness: `sampleOrder` has a refund of one unit of its first item;
the loop succeeds and the per-item lists enumerate the surviving items. -/
theorem c1_witness :
    itemPhase true sampleOrder START_ROW_BODY = (sampleAcc, true) ∧
    refunded_qty_for_item sampleOrder.refunds sampleItem1 =
      (((sampleOrder.refunds.map Refund.line_items).flatten.filter
          (fun ri => riMatches ri sampleItem1)).map RefundLineItem.qty).sum ∧
    sampleAcc.item_names =
      (survivors sampleOrder.refunds sampleOrder.line_items).map (fun it => it.name.getD "") ∧
    sampleAcc.item_quantities = (survivors sampleOrder.refunds sampleOrder.line_items).map
      (fun it => toString (effQty sampleOrder.refunds it)) := by
  have hok : itemPhase true sampleOrder START_ROW_BODY = (sampleAcc, true) := rfl
  have H := c1_refund_effective_quantity sampleOrder.refunds sampleItem1 true sampleOrder
    START_ROW_BODY sampleAcc hok
  exact ⟨hok, H.1, H.2.2.1, H.2.2.2.1⟩

/-- C2: for every successfully normalized order, the parallel multi-line
per-item fields (names, quantities, VAT amounts — each spreadsheet cell is
the `"\n"`-join of the list, see `ReportRow.item_names_cell` etc.) have
exactly one entry per surviving line item, hence equal line counts, in the
order the surviving items appear in `line_items`. -/
theorem c2_parallel_item_fields (j : DateTime → String) (t : Bool) (n : Nat) (o : Order)
    (row : ReportRow) (h : normalizeRow j t n o = some row) :
    row.item_names.length = (survivors o.refunds o.line_items).length ∧
    row.item_quantities.length = row.item_names.length ∧
    row.item_vat_amounts.length = row.item_names.length ∧
    row.item_names = (survivors o.refunds o.line_items).map (fun it => it.name.getD "") ∧
    row.item_quantities = (survivors o.refunds o.line_items).map
      (fun it => toString (effQty o.refunds it)) ∧
    row.item_vat_amounts = (survivors o.refunds o.line_items).map
      (fun it => fmtComma (vatPer o.refunds it * (effQty o.refunds it : Rat))) := by
  obtain ⟨acc, hok, e1, e2, e3, e4, _, _, _, _, _, _⟩ := normalizeRow_parts j t n o row h
  obtain ⟨H1, H2, H3, H4, _, _, _, _⟩ := itemLoop_ok o.refunds t (userTypeOf o)
    (get_buyer_name o) o.line_items (emptyAcc n) acc hok
  simp only [emptyAcc, List.nil_append] at H1 H2 H3 H4
  refine ⟨?_, ?_, ?_, ?_, ?_, ?_⟩
  · rw [e1, H1, List.length_map]
  · rw [e2, H2, e1, H1, List.length_map, List.length_map]
  · rw [e4, H4, e1, H1, List.length_map, List.length_map]
  · rw [e1, H1]
  · rw [e2, H2]
  · rw [e4, H4]

/-- C2 witness: `sampleOrder` normalizes to `sampleRow`, whose three
parallel per-item fields all have two lines. -/
theorem c2_witness :
    normalizeRow sampleJconv true START_ROW_BODY sampleOrder = some sampleRow ∧
    sampleRow.item_names.length = 2 ∧
    sampleRow.item_quantities.length = sampleRow.item_names.length ∧
    sampleRow.item_vat_amounts.length = sampleRow.item_names.length := by
  have h : normalizeRow sampleJconv true START_ROW_BODY sampleOrder = some sampleRow := rfl
  have H := c2_parallel_item_fields sampleJconv true START_ROW_BODY sampleOrder sampleRow h
  refine ⟨h, ?_, H.2.1, H.2.2.1⟩
  rw [H.1]
  rfl

/-- C3: for a surviving line item, when its tax-inclusive total is
positive the split satisfies `pre_tax_unit = unit_total / 1.10` (the code
computes `(total / 1.10) / qty`, equal over exact arithmetic),
`vat_unit = unit_total - pre_tax_unit`, and `pre_tax_unit + vat_unit`
equals `unit_total` exactly; when the total is `≤ 0` both parts are zero;
and the order's running totals are the sums of `pre_tax_unit * qty` and
`vat_unit * qty` over the surviving items. -/
theorem c3_tax_split (refunds : List Refund) (item : LineItem)
    (hq : 0 < effQty refunds item)
    (j : DateTime → String) (t : Bool) (n : Nat) (o : Order) (row : ReportRow)
    (h : normalizeRow j t n o = some row) :
    (0 < itemTotalD item →
      priceNoTaxPer refunds item =
        (itemTotalD item / (effQty refunds item : Rat)) / VAT_FACTOR ∧
      vatPer refunds item =
        itemTotalD item / (effQty refunds item : Rat) - priceNoTaxPer refunds item ∧
      priceNoTaxPer refunds item + vatPer refunds item =
        itemTotalD item / (effQty refunds item : Rat)) ∧
    (itemTotalD item ≤ 0 →
      priceNoTaxPer refunds item = 0 ∧ vatPer refunds item = 0) ∧
    row.total_no_tax = ((survivors o.refunds o.line_items).map
      (fun it => priceNoTaxPer o.refunds it * (effQty o.refunds it : Rat))).sum ∧
    row.total_vat = ((survivors o.refunds o.line_items).map
      (fun it => vatPer o.refunds it * (effQty o.refunds it : Rat))).sum := by
  obtain ⟨acc, hok, _, _, _, _, e5, e6, _, _, _, _⟩ := normalizeRow_parts j t n o row h
  obtain ⟨_, _, _, _, H5, H6, _, _⟩ := itemLoop_ok o.refunds t (userTypeOf o)
    (get_buyer_name o) o.line_items (emptyAcc n) acc hok
  simp only [emptyAcc, zero_add] at H5 H6
  refine ⟨?_, ?_, ?_, ?_⟩
  · intro hpos
    have e1 : priceNoTaxPer refunds item =
        (itemTotalD item / VAT_FACTOR) / (effQty refunds item : Rat) := by
      rw [priceNoTaxPer, if_pos hpos]
    have comm : (itemTotalD item / VAT_FACTOR) / (effQty refunds item : Rat) =
        (itemTotalD item / (effQty refunds item : Rat)) / VAT_FACTOR := by
      rw [div_div, div_div, mul_comm]
    have e2 : vatPer refunds item =
        itemTotalD item / (effQty refunds item : Rat) - priceNoTaxPer refunds item := by
      rw [vatPer, if_pos hpos]
    exact ⟨by rw [e1, comm], e2, by rw [e2]; ring⟩
  · intro hneg
    have hnp : ¬ 0 < itemTotalD item := not_lt.mpr hneg
    exact ⟨by rw [priceNoTaxPer, if_neg hnp], by rw [vatPer, if_neg hnp]⟩
  · rw [e5, H5]
  · rw [e6, H6]

/-- C3 witness: the first sample item (total 330, effective quantity 2)
splits into a pre-tax unit of 150 and a VAT unit of 15, and the sample
row's running totals are the per-item sums. -/
theorem c3_witness :
    0 < effQty sampleRefunds sampleItem1 ∧
    normalizeRow sampleJconv true START_ROW_BODY sampleOrder = some sampleRow ∧
    0 < itemTotalD sampleItem1 ∧
    priceNoTaxPer sampleRefunds sampleItem1 =
      (itemTotalD sampleItem1 / (effQty sampleRefunds sampleItem1 : Rat)) / VAT_FACTOR ∧
    priceNoTaxPer sampleRefunds sampleItem1 + vatPer sampleRefunds sampleItem1 =
      itemTotalD sampleItem1 / (effQty sampleRefunds sampleItem1 : Rat) ∧
    sampleRow.total_no_tax = ((survivors sampleOrder.refunds sampleOrder.line_items).map
      (fun it => priceNoTaxPer sampleOrder.refunds it *
        (effQty sampleOrder.refunds it : Rat))).sum := by
  have hq : 0 < effQty sampleRefunds sampleItem1 := by decide
  have h : normalizeRow sampleJconv true START_ROW_BODY sampleOrder = some sampleRow := rfl
  have hpos : 0 < itemTotalD sampleItem1 := by decide
  have H := c3_tax_split sampleRefunds sampleItem1 hq sampleJconv true START_ROW_BODY
    sampleOrder sampleRow h
  exact ⟨hq, h, hpos, (H.1 hpos).1, (H.1 hpos).2.2, H.2.2.1⟩

/-- C4: every order whose normalization fails is excluded and its id
logged, every other order yields exactly one row, and the produced rows
are sorted ascending by the display date string. -/
theorem c4_error_isolation_and_sort (j : DateTime → String) (t : Bool)
    (orders : List Order) :
    ((create_excel_report j t orders).2.1).Perm
      (orders.filterMap (fun o => normalizeRow j t START_ROW_BODY o)) ∧
    List.Sorted dateLE (create_excel_report j t orders).2.1 ∧
    (create_excel_report j t orders).2.1.length =
      (orders.filterMap (fun o => normalizeRow j t START_ROW_BODY o)).length ∧
    (create_excel_report j t orders).2.2 =
      (orders.filter (fun o => (normalizeRow j t START_ROW_BODY o).isNone)).map Order.id := by
  obtain ⟨h1, h2⟩ := processAll_spec j t orders START_ROW_BODY
  have e1 : (create_excel_report j t orders).2.1 =
      List.insertionSort dateLE (processAll j t orders START_ROW_BODY).2.1 := rfl
  have e2 : (create_excel_report j t orders).2.2 =
      (processAll j t orders START_ROW_BODY).2.2 := rfl
  have hperm : ((create_excel_report j t orders).2.1).Perm
      (orders.filterMap (fun o => normalizeRow j t START_ROW_BODY o)) := by
    rw [e1, h1]
    exact List.perm_insertionSort dateLE _
  refine ⟨hperm, ?_, hperm.length_eq, by rw [e2, h2]⟩
  rw [e1]
  exact List.sorted_insertionSort dateLE _

/-- C5: with the template active, an individual-category order whose item
loop ran to completion writes exactly one template row (seven cells at the
fixed columns 3,4,5,6,10,11,12: description, quantity, the fixed unit
label "عدد" ("piece"), `round(pre-tax unit price)`, discount 0, VAT rate
10, buyer name — see `rowCells`) per surviving line item; a corporate
order contributes zero template rows. -/
theorem c5_template_rows (j : DateTime → String) (n : Nat) (o : Order) :
    ((itemPhase true o n).2 = true → userTypeOf o = "individual" →
      (processOrder j true n o).1 =
        expectedTemplateWrites o.refunds (get_buyer_name o) n
          (survivors o.refunds o.line_items) ∧
      (processOrder j true n o).1.length =
        7 * (survivors o.refunds o.line_items).length) ∧
    (userTypeOf o = "corporate" → (processOrder j true n o).1 = []) := by
  constructor
  · intro hok hind
    have hw := processOrder_writes_individual j n o hok hind
    exact ⟨hw, by rw [hw, expectedTemplateWrites_length]⟩
  · intro hcorp
    apply processOrder_writes_nonindividual
    rw [hcorp]
    intro hcon
    exact absurd hcon (by decide)

/-- C5 witness: the individual `sampleOrder` writes two template rows (14
cells); the corporate `sampleCorpOrder` writes none. -/
theorem c5_witness :
    (itemPhase true sampleOrder START_ROW_BODY).2 = true ∧
    userTypeOf sampleOrder = "individual" ∧
    (processOrder sampleJconv true START_ROW_BODY sampleOrder).1 =
      expectedTemplateWrites sampleOrder.refunds (get_buyer_name sampleOrder) START_ROW_BODY
        (survivors sampleOrder.refunds sampleOrder.line_items) ∧
    (processOrder sampleJconv true START_ROW_BODY sampleOrder).1.length = 14 ∧
    userTypeOf sampleCorpOrder = "corporate" ∧
    (processOrder sampleJconv true START_ROW_BODY sampleCorpOrder).1 = [] := by
  have h1 : (itemPhase true sampleOrder START_ROW_BODY).2 = true := rfl
  have h2 : userTypeOf sampleOrder = "individual" := rfl
  have h3 : userTypeOf sampleCorpOrder = "corporate" := rfl
  have H := (c5_template_rows sampleJconv START_ROW_BODY sampleOrder).1 h1 h2
  have HC := (c5_template_rows sampleJconv START_ROW_BODY sampleCorpOrder).2 h3
  refine ⟨h1, h2, H.1, ?_, h3, HC⟩
  rw [H.2]
  rfl

/-- C6 (code bug): the final revision (`excel_reporter.py`) measures only
the FIRST line of each cell (`len(str(v).split('\n')[0])`), while the
claim — and the older revision in `main.py` — measure the longest line of
each cell.  On a column whose only cell is `"ab\ncdefgh"` the final
revision sets width 2+2 = 4, the claimed behavior gives 6+2 = 8. -/
theorem c6_column_width_divergence :
    colWidthER ["ab\ncdefgh"] = 4 ∧ colWidthMain ["ab\ncdefgh"] = 8 ∧
    colWidthER ["ab\ncdefgh"] ≠ colWidthMain ["ab\ncdefgh"] := by
  refine ⟨rfl, rfl, ?_⟩
  decide

/-- C7 counterexample: the buyer-category metadata key is `_user_type`,
not `user_type`.  An order tagged `corporate` under the bare key
`user_type` is treated as an individual: its buyer name is the
concatenated first/last name and its report row carries no company name
or corporate tax identifiers, although its metadata holds them. -/
theorem c7_counterexample :
    (sampleBareKeyOrder.meta_data.find? (fun m => m.key == "user_type")).map
        MetaEntry.value = some "corporate" ∧
    sampleBareKeyOrder.billing.company = "Acme" ∧
    userTypeOf sampleBareKeyOrder = "individual" ∧
    get_buyer_name sampleBareKeyOrder = "A B" ∧
    normalizeRow sampleJconv true START_ROW_BODY sampleBareKeyOrder = some sampleBareKeyRow ∧
    sampleBareKeyRow.company_name = "" ∧
    sampleBareKeyRow.national_id = "" ∧
    ("A B" : String) ≠ "Acme" := by
  refine ⟨rfl, rfl, rfl, rfl, rfl, rfl, rfl, ?_⟩
  decide

/-- C7 (amended: the metadata key is `_user_type`): the buyer category is
the value of the first `_user_type` metadata entry, defaulting to
`individual` when none exists; a corporate order's row carries the billing
company name and the `_co_national_id` / `_register_id` metadata values,
and its buyer name is the company; a non-corporate order's buyer name is
the stripped concatenation of billing first and last name. -/
theorem c7_buyer_category (o : Order) :
    (o.meta_data.find? (fun m => m.key == "_user_type") = none →
      userTypeOf o = "individual") ∧
    (∀ m, o.meta_data.find? (fun m2 => m2.key == "_user_type") = some m →
      userTypeOf o = m.value) ∧
    (∀ (j : DateTime → String) (t : Bool) (n : Nat) (row : ReportRow),
      normalizeRow j t n o = some row →
      row.company_name = companyNameOf o ∧ row.national_id = nationalIdOf o ∧
        row.register_id = registerIdOf o) ∧
    (userTypeOf o = "corporate" →
      companyNameOf o = o.billing.company ∧
      nationalIdOf o = metaValueD o.meta_data "_co_national_id" "" ∧
      registerIdOf o = metaValueD o.meta_data "_register_id" "" ∧
      get_buyer_name o = o.billing.company) ∧
    (userTypeOf o ≠ "corporate" →
      get_buyer_name o = pyStrip (o.billing.first_name ++ " " ++ o.billing.last_name)) := by
  refine ⟨?_, ?_, ?_, ?_, ?_⟩
  · intro hnone
    rw [userTypeOf, metaValueD, hnone]
    rfl
  · intro m hm
    rw [userTypeOf, metaValueD, hm]
    rfl
  · intro j t n row h
    obtain ⟨_, _, _, _, _, _, _, _, e7, e8, e9, _⟩ := normalizeRow_parts j t n o row h
    exact ⟨e7, e8, e9⟩
  · intro hcorp
    refine ⟨by rw [companyNameOf, if_pos hcorp], by rw [nationalIdOf, if_pos hcorp],
      by rw [registerIdOf, if_pos hcorp], ?_⟩
    rw [get_buyer_name]
    simp only [hcorp, if_pos]
  · intro hne
    rw [get_buyer_name]
    simp only [if_neg hne]

/-- C7 witness: the corporate `sampleCorpOrder` (key `_user_type`) carries
its company name and both tax identifiers in its row; the individual
`sampleOrder` gets the concatenated first/last buyer name. -/
theorem c7_witness :
    sampleCorpOrder.meta_data.find? (fun m2 => m2.key == "_user_type") =
      some { key := "_user_type", value := "corporate" } ∧
    userTypeOf sampleCorpOrder = "corporate" ∧
    companyNameOf sampleCorpOrder = sampleCorpOrder.billing.company ∧
    nationalIdOf sampleCorpOrder = metaValueD sampleCorpOrder.meta_data "_co_national_id" "" ∧
    get_buyer_name sampleCorpOrder = sampleCorpOrder.billing.company ∧
    normalizeRow sampleJconv true START_ROW_BODY sampleCorpOrder = some sampleCorpRow ∧
    sampleCorpRow.company_name = companyNameOf sampleCorpOrder ∧
    sampleOrder.meta_data.find? (fun m => m.key == "_user_type") = none ∧
    userTypeOf sampleOrder = "individual" ∧
    get_buyer_name sampleOrder =
      pyStrip (sampleOrder.billing.first_name ++ " " ++ sampleOrder.billing.last_name) := by
  have hfind : sampleCorpOrder.meta_data.find? (fun m2 => m2.key == "_user_type") =
      some { key := "_user_type", value := "corporate" } := rfl
  have hcorp := (c7_buyer_category sampleCorpOrder).2.1 _ hfind
  have hrow : normalizeRow sampleJconv true START_ROW_BODY sampleCorpOrder =
      some sampleCorpRow := rfl
  have hc := (c7_buyer_category sampleCorpOrder).2.2.2.1 hcorp
  have hr := ((c7_buyer_category sampleCorpOrder).2.2.1 sampleJconv true START_ROW_BODY
    sampleCorpRow hrow).1
  have hnone : sampleOrder.meta_data.find? (fun m => m.key == "_user_type") = none := rfl
  have hind := (c7_buyer_category sampleOrder).1 hnone
  have hbn := (c7_buyer_category sampleOrder).2.2.2.2 (by rw [hind]; decide)
  exact ⟨hfind, hcorp, hc.1, hc.2.1, hc.2.2.2, hrow, hr, hnone, hind, hbn⟩

/-- C8: the display order number is the value of the first metadata entry
keyed `_wc_order_number` or `_order_number`; an order with neither key
reports its internal id. -/
theorem c8_order_number (o : Order) :
    (∀ (pre post : List MetaEntry) (m : MetaEntry),
      o.meta_data = pre ++ m :: post → (∀ x ∈ pre, keyIsOrderNumber x = false) →
      keyIsOrderNumber m = true → custom_order_number o = .custom m.value) ∧
    ((∀ x ∈ o.meta_data, keyIsOrderNumber x = false) →
      custom_order_number o = .internal o.id) ∧
    (∀ (j : DateTime → String) (t : Bool) (n : Nat) (row : ReportRow),
      normalizeRow j t n o = some row → row.order_number = custom_order_number o) := by
  refine ⟨?_, ?_, ?_⟩
  · intro pre post m heq hpre hm
    rw [custom_order_number, heq, find?_first keyIsOrderNumber m pre post hpre hm]
  · intro hall
    rw [custom_order_number, List.find?_eq_none.mpr (fun x hx => by simp [hall x hx])]
  · intro j t n row h
    obtain ⟨_, _, _, _, _, _, _, _, _, _, _, e10⟩ := normalizeRow_parts j t n o row h
    exact e10

/-- C8 witness: `sampleNumberedOrder` reports the value of its first
custom-number entry (`"555"`); `sampleUnnumberedOrder`, which has neither
key, reports its internal id 77. -/
theorem c8_witness :
    sampleNumberedOrder.meta_data =
      [{ key := "foo", value := "x" }] ++
        { key := "_wc_order_number", value := "555" } ::
          [{ key := "_order_number", value := "666" }] ∧
    custom_order_number sampleNumberedOrder = .custom "555" ∧
    (∀ x ∈ sampleUnnumberedOrder.meta_data, keyIsOrderNumber x = false) ∧
    custom_order_number sampleUnnumberedOrder = .internal 77 := by
  have heq : sampleNumberedOrder.meta_data =
      [{ key := "foo", value := "x" }] ++
        { key := "_wc_order_number", value := "555" } ::
          [{ key := "_order_number", value := "666" }] := rfl
  have h1 := (c8_order_number sampleNumberedOrder).1
    [{ key := "foo", value := "x" }] [{ key := "_order_number", value := "666" }]
    { key := "_wc_order_number", value := "555" } heq (by decide) (by decide)
  have hall : ∀ x ∈ sampleUnnumberedOrder.meta_data, keyIsOrderNumber x = false := by decide
  have h2 := (c8_order_number sampleUnnumberedOrder).2.1 hall
  exact ⟨heq, h1, hall, h2⟩

/-- C9: the template filler's filename search never returns a name already
on disk, so a second run on the same display date (after the first run's
file exists) yields a different name and overwrites nothing. -/
theorem c9_unique_filename (existing : List String) (dateStr : String) :
    findUniqueName existing dateStr ∉ existing ∧
    findUniqueName (findUniqueName existing dateStr :: existing) dateStr ≠
      findUniqueName existing dateStr := by
  refine ⟨findUniqueName_notMem existing dateStr, ?_⟩
  intro h
  have hm := findUniqueName_notMem (findUniqueName existing dateStr :: existing) dateStr
  rw [h] at hm
  exact hm (List.mem_cons_self _ _)

/-- C10: if an individual-category order fails normalization only after
its line items were processed (e.g. a malformed `date_created`), the
template rows already written for its surviving items remain in the
template artifact even though the order is excluded from the main report —
exclusion is not atomic across the two artifacts. -/
theorem c10_nonatomic_exclusion (j : DateTime → String) (o : Order)
    (h1 : (itemPhase true o START_ROW_BODY).2 = true)
    (h2 : userTypeOf o = "individual")
    (h3 : normalizeRow j true START_ROW_BODY o = none)
    (h4 : survivors o.refunds o.line_items ≠ []) :
    (create_excel_report j true [o]).1 =
      expectedTemplateWrites o.refunds (get_buyer_name o) START_ROW_BODY
        (survivors o.refunds o.line_items) ∧
    (create_excel_report j true [o]).1 ≠ [] ∧
    (create_excel_report j true [o]).2.1 = [] ∧
    (create_excel_report j true [o]).2.2 = [o.id] := by
  have h3' : (processOrder j true START_ROW_BODY o).2.1 = none := h3
  have e1 : (create_excel_report j true [o]).1 =
      (processOrder j true START_ROW_BODY o).1 := by
    simp [create_excel_report, processAll]
  have e2 : (create_excel_report j true [o]).2.1 = [] := by
    simp [create_excel_report, processAll, h3']
  have e3 : (create_excel_report j true [o]).2.2 = [o.id] := by
    simp [create_excel_report, processAll, h3']
  have hw := processOrder_writes_individual j START_ROW_BODY o h1 h2
  refine ⟨by rw [e1, hw], ?_, e2, e3⟩
  rw [e1, hw]
  rcases hs : survivors o.refunds o.line_items with _ | ⟨it, rest⟩
  · exact absurd hs h4
  · exact expectedTemplateWrites_ne_nil o.refunds (get_buyer_name o) START_ROW_BODY it rest

/-- C10 witness: `sampleBadDateOrder` (individual, one surviving item,
malformed date) leaves its seven template cell writes in the artifact
while producing no report row, and its id 202 is logged as skipped. -/
theorem c10_witness :
    (itemPhase true sampleBadDateOrder START_ROW_BODY).2 = true ∧
    userTypeOf sampleBadDateOrder = "individual" ∧
    normalizeRow sampleJconv true START_ROW_BODY sampleBadDateOrder = none ∧
    survivors sampleBadDateOrder.refunds sampleBadDateOrder.line_items ≠ [] ∧
    (create_excel_report sampleJconv true [sampleBadDateOrder]).1 =
      expectedTemplateWrites sampleBadDateOrder.refunds
        (get_buyer_name sampleBadDateOrder) START_ROW_BODY
        (survivors sampleBadDateOrder.refunds sampleBadDateOrder.line_items) ∧
    (create_excel_report sampleJconv true [sampleBadDateOrder]).2.1 = [] ∧
    (create_excel_report sampleJconv true [sampleBadDateOrder]).2.2 = [202] := by
  have h1 : (itemPhase true sampleBadDateOrder START_ROW_BODY).2 = true := rfl
  have h2 : userTypeOf sampleBadDateOrder = "individual" := rfl
  have h3 : normalizeRow sampleJconv true START_ROW_BODY sampleBadDateOrder = none := rfl
  have h4 : survivors sampleBadDateOrder.refunds sampleBadDateOrder.line_items ≠ [] := by
    decide
  have H := c10_nonatomic_exclusion sampleJconv sampleBadDateOrder h1 h2 h3 h4
  exact ⟨h1, h2, h3, h4, H.1, H.2.2.1, H.2.2.2⟩
